import Mathlib

/-!
Shallow embedding of the mysql-nodejs query builder (class DB in Database.jsx).
The builder accumulates clause state (table, selected columns, join fragments,
predicate fragments, bound parameters, order clause, limit clause), compiles
SQL strings with positional placeholders, and executes them against a driver
(the mysql2 pool or a checked-out transaction connection). The driver is
modelled as an abstract function from (sql, params) to a result or an error;
every execution is also recorded as an event so that claims about which
statements are sent (and to which connection) can be stated.
-/

/-- A JavaScript value as it appears in parameter lists and records.
undef models the JS undefined sentinel rejected by insert validation. -/
inductive Value where
  | undef
  | null
  | num (n : Int)
  | str (s : String)
  deriving Repr, DecidableEq

/-- A result row: a JS object, modelled as an insertion-ordered association list. -/
abbrev Row := List (String × Value)

/-- A record passed to insert or update: a JS object, insertion-ordered. -/
abbrev Record := List (String × Value)

/-- The normalized driver result: row array plus result metadata
(insertId, affectedRows), as returned by mysql2 execute. -/
structure ExecResult where
  rows : List Row
  insertId : Int
  affectedRows : Int
  deriving Repr, DecidableEq

deriving instance DecidableEq for Except

/-- The external driver: maps a statement and parameters to a result or a
driver error message. Models both pool.execute and connection.execute. -/
abbrev Driver := String → List Value → Except String ExecResult

/-- Which connection an execution was routed to: the shared pool or the
checked-out transaction connection. -/
inductive Target where
  | pool
  | trxConn
  deriving Repr, DecidableEq

/-- One execution event: the statement and parameters sent, and where. -/
structure ExecEvent where
  target : Target
  sql : String
  params : List Value
  deriving Repr, DecidableEq

/-- JS Array.prototype.join: elements interleaved with a separator. -/
def joinSep (sep : String) : List String → String
  | [] => ""
  | [x] => x
  | x :: y :: xs => x ++ sep ++ joinSep sep (y :: xs)

/-- Builder instance state: the fields set in the DB constructor and reset(). -/
structure Db where
  table : String
  trx : Bool
  selectCols : String
  joins : List String
  wheres : List String
  params : List Value
  order : String
  limitVal : String
  deriving Repr, DecidableEq

namespace DB

/-- DB.reset: restores the accumulated clause state to its empty form
(selectCols wildcard, no joins, no wheres, no params, no order, no limit).
The table and the transaction handle are untouched. -/
def reset (b : Db) : Db :=
  { b with selectCols := "*", joins := [], wheres := [], params := [],
           order := "", limitVal := "" }

/-- DB.table / the DB constructor: a fresh builder for a table, not bound
to any transaction connection, with empty accumulated state. -/
def table (name : String) : Db :=
  { table := name, trx := false, selectCols := "*", joins := [], wheres := [],
    params := [], order := "", limitVal := "" }

/-- Argument to select: either an array of column expressions or a raw string. -/
inductive SelectArg where
  | cols (l : List String)
  | raw (s : String)
  deriving Repr, DecidableEq

/-- DB.select: overwrites selectCols; an array is joined with a comma. -/
def select (b : Db) (columns : SelectArg) : Db :=
  { b with selectCols :=
      match columns with
      | .cols l => joinSep ", " l
      | .raw s => s }

/-- DB.join: appends one rendered join fragment. -/
def join (b : Db) (tbl first operator second type : String) : Db :=
  { b with joins :=
      b.joins ++ [type ++ " JOIN " ++ tbl ++ " ON " ++ first ++ " " ++ operator ++ " " ++ second] }

/-- DB.leftJoin: join with the LEFT kind. -/
def leftJoin (b : Db) (tbl first operator second : String) : Db :=
  join b tbl first operator second "LEFT"

/-- DB.rightJoin: join with the RIGHT kind. -/
def rightJoin (b : Db) (tbl first operator second : String) : Db :=
  join b tbl first operator second "RIGHT"

/-- DB.where: appends one predicate fragment of the form column operator ?
and the bound value at the matching position. -/
def whereCond (b : Db) (column operator : String) (value : Value) : Db :=
  { b with wheres := b.wheres ++ [column ++ " " ++ operator ++ " ?"],
           params := b.params ++ [value] }

/-- DB.whereEqual: expands a key to value mapping, in insertion order, into
one equality predicate per entry via the same path as where. -/
def whereEqual (b : Db) (data : List (String × Value)) : Db :=
  data.foldl (fun acc kv => whereCond acc kv.1 "=" kv.2) b

/-- DB.orderBy: sets (replaces) the single order clause. -/
def orderBy (b : Db) (column dir : String) : Db :=
  { b with order := "ORDER BY " ++ column ++ " " ++ dir }

/-- DB.limit: sets (replaces) the single limit clause; with an offset the
offset-aware form is rendered. -/
def limit (b : Db) (count : Int) (offset : Option Int) : Db :=
  { b with limitVal :=
      match offset with
      | some o => "LIMIT " ++ toString o ++ ", " ++ toString count
      | none => "LIMIT " ++ toString count }

/-- The WHERE component of compiled statements: empty when no predicate
fragments are present, otherwise the fragments joined with AND. -/
def whereClause (b : Db) : String :=
  if b.wheres.isEmpty then "" else "WHERE " ++ joinSep " AND " b.wheres

/-- DB.buildSelect: renders the accumulated state into the SELECT statement,
reproducing the template literal of the source. -/
def buildSelect (b : Db) : String :=
  "\n      SELECT " ++ b.selectCols ++
  "\n      FROM " ++ b.table ++
  "\n      " ++ joinSep " " b.joins ++
  "\n      " ++ whereClause b ++
  "\n      " ++ b.order ++
  "\n      " ++ b.limitVal ++
  "\n    "

end DB

/-- Count of question-mark placeholder characters in a string. -/
def countQ (s : String) : Nat :=
  s.data.countP (fun c => c == '?')

/-- Whitespace class of the regex used in the debug log normalization. -/
def isWsChar (c : Char) : Bool :=
  c == ' ' || c == '\t' || c == '\n' || c == '\r'

/-- Collapse every run of whitespace to a single space, as the regex
replace of the source debug logging does. -/
def collapseWs : List Char → List Char
  | [] => []
  | [c] => if isWsChar c then [' '] else [c]
  | c :: d :: cs =>
    if isWsChar c && isWsChar d then collapseWs (d :: cs)
    else (if isWsChar c then ' ' else c) :: collapseWs (d :: cs)

/-- The statement text as logged in debug mode: whitespace runs collapsed
to single spaces, then trimmed. -/
def normalizeSql (s : String) : String :=
  (String.mk (collapseWs s.data)).trim

namespace DB

/-- Outcome of one low-level execution: the driver result, the event that
was sent, and the diagnostic log entries emitted. -/
structure ExecOut where
  result : Except String ExecResult
  event : ExecEvent
  logs : List (String × List Value)

/-- Which connection the builder routes through: the transaction
connection when a transaction handle is present, the pool otherwise. -/
def execTarget (b : Db) : Target :=
  if b.trx then Target.trxConn else Target.pool

/-- DB._execute: logs the normalized statement and parameters when the
process-wide debug flag is on, then routes the statement to the
transaction connection when present, the shared pool otherwise. -/
def _execute (drv : Driver) (dbg : Bool) (b : Db) (sql : String) (ps : List Value) : ExecOut :=
  { result := drv sql ps
  , event := { target := execTarget b, sql := sql, params := ps }
  , logs := if dbg then [(normalizeSql sql, ps)] else [] }

/-- Outcome of one terminal operation: the returned value or raised error,
the builder state after the call, the statements sent, and the logs. -/
structure OpOut (α : Type) where
  result : Except String α
  state : Db
  events : List ExecEvent
  logs : List (String × List Value)

/-- The debug-independent part of an operation outcome: everything except
the diagnostic log entries. -/
def OpOut.core {α : Type} (o : OpOut α) : Except String α × Db × List ExecEvent :=
  (o.result, o.state, o.events)

/-- DB.get: compiles buildSelect, executes it with the accumulated
parameters, returns the row array; a driver failure is re-raised wrapped
with a GET failed marker; the state is reset on success and failure. -/
def get (drv : Driver) (dbg : Bool) (b : Db) : OpOut (List Row) :=
  let e := _execute drv dbg b (buildSelect b) b.params
  { result :=
      match e.result with
      | .ok res => .ok res.rows
      | .error m => .error ("GET failed: " ++ m)
  , state := reset b
  , events := [e.event]
  , logs := e.logs }

/-- DB.first: forces limit 1, runs get, returns the first row or null. -/
def first (drv : Driver) (dbg : Bool) (b : Db) : OpOut (Option Row) :=
  let o := get drv dbg (limit b 1 none)
  { result := o.result.map List.head?
  , state := o.state
  , events := o.events
  , logs := o.logs }

/-- DB.insert: rejects any undefined value before compiling, then compiles
a single-row INSERT over the record keys in insertion order and returns
the generated insertId; every failure is wrapped with an INSERT marker
naming the table. The accumulated state is not reset. -/
def insert (drv : Driver) (dbg : Bool) (b : Db) (data : Record) : OpOut Int :=
  match data.find? (fun kv => kv.2 == Value.undef) with
  | some kv =>
    { result := .error ("INSERT[" ++ b.table ++ "] failed: Undefined value for column: " ++ kv.1 ++ "-undefined")
    , state := b, events := [], logs := [] }
  | none =>
    let keys := data.map (fun kv => kv.1)
    let values := data.map (fun kv => kv.2)
    let sql := "\n        INSERT INTO " ++ b.table ++ " (" ++ joinSep ", " keys ++ ")" ++
               "\n        VALUES (" ++ joinSep ", " (keys.map (fun _ => "?")) ++ ")\n      "
    let e := _execute drv dbg b sql values
    { result :=
        match e.result with
        | .ok res => .ok res.insertId
        | .error m => .error ("INSERT[" ++ b.table ++ "] failed: " ++ m)
    , state := b
    , events := [e.event]
    , logs := e.logs }

/-- The error text for a bulk-insert row missing a column of the first row. -/
def missingMsg (k : String) (i : Nat) : String :=
  "Missing column \x22" ++ k ++ "\x22 in row " ++ toString i

/-- The error text for a bulk-insert row holding an undefined value. -/
def undefMsg (k : String) (i : Nat) : String :=
  "Undefined value for column \x22" ++ k ++ "\x22 in row " ++ toString i

/-- The per-row shape check of insertBulk: for each key of the first row,
in order, the row must contain the key and its value must be defined. -/
def checkRow (keys : List String) (i : Nat) (r : Record) : Option String :=
  match keys with
  | [] => none
  | k :: ks =>
    match List.lookup k r with
    | none => some (missingMsg k i)
    | some Value.undef => some (undefMsg k i)
    | some _ => checkRow ks i r

/-- The row loop of insertBulk validation, reporting the first violation. -/
def checkRows (keys : List String) (i : Nat) : List Record → Option String
  | [] => none
  | r :: rs =>
    match checkRow keys i r with
    | some m => some m
    | none => checkRows keys (i + 1) rs

/-- The key set of the first bulk-insert row (Object.keys of rows[0]). -/
def bulkKeys (rows : List Record) : List String :=
  (rows.headD []).map (fun kv => kv.1)

/-- JS property read row[k]: the looked-up value, undefined when absent. -/
def lookupD (r : Record) (k : String) : Value :=
  (List.lookup k r).getD Value.undef

/-- The compiled multi-row INSERT statement of insertBulk. -/
def bulkSql (b : Db) (rows : List Record) : String :=
  let keys := bulkKeys rows
  let perRow := "(" ++ joinSep ", " (keys.map (fun _ => "?")) ++ ")"
  "\n          INSERT INTO " ++ b.table ++ " (" ++ joinSep ", " keys ++ ")" ++
  "\n          VALUES " ++ joinSep ", " (rows.map (fun _ => perRow)) ++ "\n        "

/-- The flattened bulk-insert parameter sequence: per-record values at the
first record's keys, in column order, row-major. -/
def bulkValues (rows : List Record) : List Value :=
  rows.flatMap (fun r => (bulkKeys rows).map (fun k => lookupD r k))

/-- DB.insertBulk: requires a non-empty array whose rows all pass the shape
check against the first row's keys; compiles one multi-row INSERT with the
flattened values and returns affectedRows; every failure is wrapped with a
BULK INSERT marker. The accumulated state is not reset. -/
def insertBulk (drv : Driver) (dbg : Bool) (b : Db) (rows : List Record) : OpOut Int :=
  if rows.isEmpty then
    { result := .error "BULK INSERT failed: insertBulk requires a non-empty array"
    , state := b, events := [], logs := [] }
  else
    match checkRows (bulkKeys rows) 0 rows with
    | some m =>
      { result := .error ("BULK INSERT failed: " ++ m)
      , state := b, events := [], logs := [] }
    | none =>
      let e := _execute drv dbg b (bulkSql b rows) (bulkValues rows)
      { result :=
          match e.result with
          | .ok res => .ok res.affectedRows
          | .error m => .error ("BULK INSERT failed: " ++ m)
      , state := b
      , events := [e.event]
      , logs := e.logs }

/-- DB.update: throws UPDATE requires WHERE before the guarded block when
no predicate fragment is present (no I/O, no reset); otherwise compiles
the UPDATE with SET placeholders before WHERE placeholders, executes it,
returns affectedRows, and resets the state whether or not the driver
call succeeds. -/
def update (drv : Driver) (dbg : Bool) (b : Db) (data : Record) : OpOut Int :=
  if b.wheres.isEmpty then
    { result := .error "UPDATE requires WHERE", state := b, events := [], logs := [] }
  else
    let setClause := joinSep ", " (data.map (fun kv => kv.1 ++ "=?"))
    let sql := "\n        UPDATE " ++ b.table ++
               "\n        SET " ++ setClause ++
               "\n        WHERE " ++ joinSep " AND " b.wheres ++ "\n      "
    let ps := data.map (fun kv => kv.2) ++ b.params
    let e := _execute drv dbg b sql ps
    { result :=
        match e.result with
        | .ok res => .ok res.affectedRows
        | .error m => .error m
    , state := reset b
    , events := [e.event]
    , logs := e.logs }

/-- DB.delete: throws DELETE requires WHERE when no predicate fragment is
present (no I/O, no reset); otherwise compiles and executes the DELETE,
returns affectedRows, and resets the state on success and failure. -/
def delete (drv : Driver) (dbg : Bool) (b : Db) : OpOut Int :=
  if b.wheres.isEmpty then
    { result := .error "DELETE requires WHERE", state := b, events := [], logs := [] }
  else
    let sql := "\n        DELETE FROM " ++ b.table ++
               "\n        WHERE " ++ joinSep " AND " b.wheres ++ "\n      "
    let e := _execute drv dbg b sql b.params
    { result :=
        match e.result with
        | .ok res => .ok res.affectedRows
        | .error m => .error m
    , state := reset b
    , events := [e.event]
    , logs := e.logs }

/-- DB.truncate: executes the table-only TRUNCATE statement with no
parameters and returns the raw driver acknowledgement; the accumulated
state is not reset. -/
def truncate (drv : Driver) (dbg : Bool) (b : Db) : OpOut ExecResult :=
  let e := _execute drv dbg b ("TRUNCATE TABLE " ++ b.table) []
  { result := e.result
  , state := b
  , events := [e.event]
  , logs := e.logs }

/-- The scalar total read from a COUNT result: the total field of the
first row, with the JS falsy-or default collapsing a missing row, a
missing field, or a non-number to 0. -/
def totalOf (rows : List Row) : Int :=
  match rows.head? with
  | none => 0
  | some r =>
    match List.lookup "total" r with
    | some (Value.num n) => n
    | _ => 0

/-- DB.count: compiles the COUNT variant over the same JOIN/WHERE state,
executes it with the accumulated parameters, and returns the scalar
total; failures are wrapped with a COUNT failed marker; the state is
reset on success and failure. -/
def count (drv : Driver) (dbg : Bool) (b : Db) (column : String) : OpOut Int :=
  let sql := "\n        SELECT COUNT(" ++ column ++ ") as total" ++
             "\n        FROM " ++ b.table ++
             "\n        " ++ joinSep " " b.joins ++
             "\n        " ++ whereClause b ++ "\n      "
  let e := _execute drv dbg b sql b.params
  { result :=
      match e.result with
      | .ok res => .ok (totalOf res.rows)
      | .error m => .error ("COUNT failed: " ++ m)
  , state := reset b
  , events := [e.event]
  , logs := e.logs }

/-- The COUNT statement paginate issues against the current JOIN/WHERE
state before fetching the data page. -/
def paginateCountSql (b : Db) : String :=
  "\n      SELECT COUNT(*) as total" ++
  "\n      FROM " ++ b.table ++
  "\n      " ++ joinSep " " b.joins ++
  "\n      " ++ whereClause b ++ "\n    "

/-- Pagination metadata returned by paginate. -/
structure PageMeta where
  total : Int
  perPage : Int
  currentPage : Int
  lastPage : Int
  deriving Repr, DecidableEq

/-- The composite paginate result: the data page plus metadata. -/
structure PageResult where
  data : List Row
  meta : PageMeta
  deriving Repr, DecidableEq

/-- DB.paginate: computes offset as (page - 1) * perPage with no argument
validation, first executes the COUNT statement against the current
JOIN/WHERE state (raising the raw driver error on failure, without
reset), then applies limit(perPage, offset) and runs get, returning the
data page and metadata with lastPage = ceil(total / perPage). -/
def paginate (drv : Driver) (dbg : Bool) (b : Db) (page perPage : Int) : OpOut PageResult :=
  let offset := (page - 1) * perPage
  let e := _execute drv dbg b (paginateCountSql b) b.params
  match e.result with
  | .error m =>
    { result := .error m, state := b, events := [e.event], logs := e.logs }
  | .ok cres =>
    let total := totalOf cres.rows
    let o := get drv dbg (limit b perPage (some offset))
    { result := o.result.map (fun rows =>
        { data := rows
        , meta :=
          { total := total
          , perPage := perPage
          , currentPage := page
          , lastPage := ⌈(total : ℚ) / (perPage : ℚ)⌉ } })
    , state := o.state
    , events := e.event :: o.events
    , logs := e.logs ++ o.logs }

/-- DB.sql: the top-level raw-SQL entry point, executing directly against
the pool and returning only the row sequence of the driver result. -/
def sql (drv : Driver) (q : String) (ps : List Value) : Except String (List Row) :=
  (drv q ps).map ExecResult.rows

end DB

/-- The raw-SQL pass-through exposed on the trx object inside
DB.transaction: returns the unnormalized driver result tuple (row array
plus result metadata) from the transaction connection. -/
def trxSql (conn : Driver) (q : String) (ps : List Value) : Except String ExecResult :=
  conn q ps

/-- One primitive issued on the transaction connection by the coordinator
or the unit of work. -/
inductive TxEvent where
  | beginTx
  | commit
  | rollback
  | release
  | exec (sql : String) (params : List Value)
  deriving Repr, DecidableEq

/-- DB.transaction: checks out a connection, begins a transaction, runs the
unit of work (abstracted here by its outcome and the statements it issued
on the connection), commits only when the unit of work completes, and
releases the connection in the finally block on every path; an error from
the unit of work is re-raised unchanged. The source has no catch branch,
so no rollback primitive is ever issued. -/
def transaction {α : Type} (body : Except String α × List TxEvent) :
    Except String α × List TxEvent :=
  match body with
  | (.ok a, evs) => (.ok a, TxEvent.beginTx :: (evs ++ [TxEvent.commit, TxEvent.release]))
  | (.error e, evs) => (.error e, TxEvent.beginTx :: (evs ++ [TxEvent.release]))

/-- One clause call on a builder: the reified argument of each
state-accumulating method, used to range over all reachable states. -/
inductive Clause where
  | selectC (columns : DB.SelectArg)
  | joinC (tbl first operator second type : String)
  | whereC (column operator : String) (value : Value)
  | whereEqualC (data : List (String × Value))
  | orderByC (column dir : String)
  | limitC (count : Int) (offset : Option Int)
  deriving Repr, DecidableEq

/-- Apply one clause call to a builder via the corresponding method. -/
def applyClause (b : Db) : Clause → Db
  | .selectC c => DB.select b c
  | .joinC t f o s ty => DB.join b t f o s ty
  | .whereC c o v => DB.whereCond b c o v
  | .whereEqualC d => DB.whereEqual b d
  | .orderByC c d => DB.orderBy b c d
  | .limitC n o => DB.limit b n o

/-- Apply a sequence of clause calls, in order, to a builder. -/
def applyClauses (b : Db) (ops : List Clause) : Db :=
  ops.foldl applyClause b

/-- The predicate fragments a clause sequence appends, in call order. -/
def whereFrags : List Clause → List String
  | [] => []
  | Clause.whereC c o _ :: rest => (c ++ " " ++ o ++ " ?") :: whereFrags rest
  | Clause.whereEqualC d :: rest => d.map (fun kv => kv.1 ++ " " ++ "=" ++ " ?") ++ whereFrags rest
  | _ :: rest => whereFrags rest

/-- The bound parameters a clause sequence appends, in call order. -/
def whereVals : List Clause → List Value
  | [] => []
  | Clause.whereC _ _ v :: rest => v :: whereVals rest
  | Clause.whereEqualC d :: rest => d.map (fun kv => kv.2) ++ whereVals rest
  | _ :: rest => whereVals rest

/-- A clause call whose predicate text (column and operator strings) holds
no question-mark character, so the only placeholders come from where. -/
def cleanClause : Clause → Prop
  | Clause.whereC c o _ => countQ c = 0 ∧ countQ o = 0
  | Clause.whereEqualC d => ∀ kv ∈ d, countQ kv.1 = 0
  | _ => True

instance : DecidablePred cleanClause := by
  intro cl
  unfold cleanClause
  cases cl <;> infer_instance

theorem countQ_append (a b : String) : countQ (a ++ b) = countQ a + countQ b := by
  simp [countQ, String.data_append, List.countP_append]

theorem countQ_joinSep_ones (sep : String) (l : List String)
    (hsep : countQ sep = 0) (h : ∀ f ∈ l, countQ f = 1) :
    countQ (joinSep sep l) = l.length := by
  induction l with
  | nil => simp [joinSep, countQ]
  | cons x xs ih =>
    cases xs with
    | nil => simpa [joinSep] using h x (by simp)
    | cons y ys =>
      have hx : countQ x = 1 := h x (by simp)
      have hrest : ∀ f ∈ y :: ys, countQ f = 1 := by
        intro f hf; exact h f (by simp [hf])
      calc countQ (joinSep sep (x :: y :: ys))
          = countQ x + countQ sep + countQ (joinSep sep (y :: ys)) := by
            simp [joinSep, countQ_append]
        _ = (y :: ys).length + 1 := by rw [hx, hsep, ih hrest]; omega
        _ = (x :: y :: ys).length := by simp

theorem whereEqual_foldl_wheres_params (d : List (String × Value)) (b : Db) :
    (DB.whereEqual b d).wheres = b.wheres ++ d.map (fun kv => kv.1 ++ " " ++ "=" ++ " ?") ∧
    (DB.whereEqual b d).params = b.params ++ d.map (fun kv => kv.2) := by
  induction d generalizing b with
  | nil => simp [DB.whereEqual]
  | cons kv rest ih =>
    have hrec := ih (DB.whereCond b kv.1 "=" kv.2)
    simp only [DB.whereEqual, List.foldl_cons] at hrec ⊢
    constructor
    · rw [hrec.1]; simp [DB.whereCond]
    · rw [hrec.2]; simp [DB.whereCond]

theorem applyClauses_wheres_params (ops : List Clause) (b : Db) :
    (applyClauses b ops).wheres = b.wheres ++ whereFrags ops ∧
    (applyClauses b ops).params = b.params ++ whereVals ops := by
  induction ops generalizing b with
  | nil => simp [applyClauses, whereFrags, whereVals]
  | cons op rest ih =>
    simp only [applyClauses, List.foldl_cons] at ih ⊢
    cases op with
    | selectC c =>
      simpa [applyClause, DB.select, whereFrags, whereVals] using ih (DB.select b c)
    | joinC t f o s ty =>
      simpa [applyClause, DB.join, whereFrags, whereVals] using ih (DB.join b t f o s ty)
    | whereC c o v =>
      have := ih (DB.whereCond b c o v)
      simp [applyClause, DB.whereCond, whereFrags, whereVals] at this ⊢
      simp [this]
    | whereEqualC d =>
      have h1 := whereEqual_foldl_wheres_params d b
      have h2 := ih (DB.whereEqual b d)
      simp [applyClause, whereFrags, whereVals] at h2 ⊢
      rw [h2.1, h2.2, h1.1, h1.2]
      simp
    | orderByC c dir =>
      simpa [applyClause, DB.orderBy, whereFrags, whereVals] using ih (DB.orderBy b c dir)
    | limitC n o =>
      simpa [applyClause, DB.limit, whereFrags, whereVals] using ih (DB.limit b n o)

/-- The declarative validity condition of insertBulk: a non-empty sequence
in which, at every key of the first record, every record holds a defined
value (records may carry extra keys; those are ignored by the code). -/
def bulkOk (rows : List Record) : Prop :=
  rows ≠ [] ∧ ∀ r ∈ rows, ∀ k ∈ DB.bulkKeys rows, DB.lookupD r k ≠ Value.undef

instance : DecidablePred bulkOk := by
  intro rows
  unfold bulkOk
  infer_instance

theorem checkRow_none_iff (keys : List String) (i : Nat) (r : Record) :
    DB.checkRow keys i r = none ↔ ∀ k ∈ keys, DB.lookupD r k ≠ Value.undef := by
  induction keys with
  | nil => simp [DB.checkRow]
  | cons k ks ih =>
    rw [List.forall_mem_cons]
    unfold DB.checkRow
    cases hl : List.lookup k r with
    | none => simp [DB.lookupD, hl]
    | some v => cases v <;> simp [DB.lookupD, hl, ih]

theorem checkRows_none_iff (keys : List String) (rs : List Record) (i : Nat) :
    DB.checkRows keys i rs = none ↔ ∀ r ∈ rs, ∀ k ∈ keys, DB.lookupD r k ≠ Value.undef := by
  induction rs generalizing i with
  | nil => simp [DB.checkRows]
  | cons r rest ih =>
    rw [List.forall_mem_cons]
    unfold DB.checkRows
    cases hr : DB.checkRow keys i r with
    | some m =>
      constructor
      · intro h; cases h
      · intro hcon
        have := (checkRow_none_iff keys i r).mpr hcon.1
        rw [hr] at this
        cases this
    | none =>
      have h1 := (checkRow_none_iff keys i r).mp hr
      rw [ih]
      exact ⟨fun hrest => ⟨h1, hrest⟩, fun hc => hc.2⟩

theorem checkRow_some_first_violation (keys : List String) (i : Nat) (r : Record)
    (m : String) (h : DB.checkRow keys i r = some m) :
    ∃ ks1 k ks2, keys = ks1 ++ k :: ks2 ∧
      (∀ k2 ∈ ks1, DB.lookupD r k2 ≠ Value.undef) ∧
      ((List.lookup k r = none ∧ m = DB.missingMsg k i) ∨
       (List.lookup k r = some Value.undef ∧ m = DB.undefMsg k i)) := by
  induction keys with
  | nil => simp [DB.checkRow] at h
  | cons k ks ih =>
    unfold DB.checkRow at h
    cases hl : List.lookup k r with
    | none =>
      rw [hl] at h
      injection h with h2
      exact ⟨[], k, ks, rfl, by simp, Or.inl ⟨hl, h2.symm⟩⟩
    | some v =>
      rw [hl] at h
      cases v with
      | undef =>
        injection h with h2
        exact ⟨[], k, ks, rfl, by simp, Or.inr ⟨hl, h2.symm⟩⟩
      | null =>
        obtain ⟨ks1, k2, ks2, heq, hpre, hviol⟩ := ih h
        refine ⟨k :: ks1, k2, ks2, by simp [heq], ?_, hviol⟩
        intro k3 hk3
        rcases List.mem_cons.mp hk3 with rfl | hk3
        · simp [DB.lookupD, hl]
        · exact hpre k3 hk3
      | num n =>
        obtain ⟨ks1, k2, ks2, heq, hpre, hviol⟩ := ih h
        refine ⟨k :: ks1, k2, ks2, by simp [heq], ?_, hviol⟩
        intro k3 hk3
        rcases List.mem_cons.mp hk3 with rfl | hk3
        · simp [DB.lookupD, hl]
        · exact hpre k3 hk3
      | str s =>
        obtain ⟨ks1, k2, ks2, heq, hpre, hviol⟩ := ih h
        refine ⟨k :: ks1, k2, ks2, by simp [heq], ?_, hviol⟩
        intro k3 hk3
        rcases List.mem_cons.mp hk3 with rfl | hk3
        · simp [DB.lookupD, hl]
        · exact hpre k3 hk3

theorem checkRows_some_first_violation (keys : List String) (rs : List Record) (m : String) :
    ∀ i, DB.checkRows keys i rs = some m →
      ∃ j r, j < rs.length ∧ rs[j]? = some r ∧
        (∀ j2 < j, ∀ r2, rs[j2]? = some r2 → ∀ k ∈ keys, DB.lookupD r2 k ≠ Value.undef) ∧
        ∃ ks1 k ks2, keys = ks1 ++ k :: ks2 ∧
          (∀ k2 ∈ ks1, DB.lookupD r k2 ≠ Value.undef) ∧
          ((List.lookup k r = none ∧ m = DB.missingMsg k (i + j)) ∨
           (List.lookup k r = some Value.undef ∧ m = DB.undefMsg k (i + j))) := by
  induction rs with
  | nil => intro i h; simp [DB.checkRows] at h
  | cons r rest ih =>
    intro i h
    unfold DB.checkRows at h
    cases hr : DB.checkRow keys i r with
    | some m2 =>
      rw [hr] at h
      injection h with h2
      subst h2
      obtain ⟨ks1, k, ks2, heq, hpre, hviol⟩ := checkRow_some_first_violation keys i r m2 hr
      refine ⟨0, r, by simp, by simp, ?_, ks1, k, ks2, heq, hpre, ?_⟩
      · intro j2 hj2
        exact absurd hj2 (Nat.not_lt_zero j2)
      · simpa using hviol
    | none =>
      rw [hr] at h
      obtain ⟨j, r2, hj, hget, hprior, ks1, k, ks2, heq, hpre, hviol⟩ := ih (i + 1) h
      refine ⟨j + 1, r2, by simp only [List.length_cons]; omega, by simpa using hget,
        ?_, ks1, k, ks2, heq, hpre, ?_⟩
      · intro j2 hj2 r3 hr3 k2 hk2
        cases j2 with
        | zero =>
          have hr3b : r = r3 := by simpa using hr3
          subst hr3b
          exact (checkRow_none_iff keys i r).mp hr k2 hk2
        | succ j3 =>
          have hj3 : j3 < j := by omega
          have hg3 : rest[j3]? = some r3 := by simpa using hr3
          exact hprior j3 hj3 r3 hg3 k2 hk2
      · rw [show i + (j + 1) = i + 1 + j by omega]
        exact hviol

theorem flatMap_const_length (keys : List String) (f : Record → String → Value)
    (rs : List Record) :
    (rs.flatMap (fun r => keys.map (f r))).length = rs.length * keys.length := by
  induction rs with
  | nil => simp
  | cons r rest ih =>
    simp only [List.flatMap_cons, List.length_append, List.length_map, List.length_cons, ih]
    ring

theorem bulkValues_length (rows : List Record) :
    (DB.bulkValues rows).length = rows.length * (DB.bulkKeys rows).length := by
  unfold DB.bulkValues
  exact flatMap_const_length (DB.bulkKeys rows) (fun r k => DB.lookupD r k) rows

theorem whereFrags_length_eq (ops : List Clause) :
    (whereFrags ops).length = (whereVals ops).length := by
  induction ops with
  | nil => rfl
  | cons op rest ih =>
    cases op <;> simp [whereFrags, whereVals, ih]

theorem whereFrags_clean_countQ (ops : List Clause) (h : ∀ cl ∈ ops, cleanClause cl) :
    ∀ f ∈ whereFrags ops, countQ f = 1 := by
  induction ops with
  | nil => simp [whereFrags]
  | cons op rest ih =>
    have hop := h op (by simp)
    have hrest : ∀ cl ∈ rest, cleanClause cl := by
      intro cl hc; exact h cl (by simp [hc])
    cases op with
    | whereC c o v =>
      intro f hf
      simp only [whereFrags, List.mem_cons] at hf
      rcases hf with hf | hf
      · subst hf
        simp only [cleanClause] at hop
        rw [countQ_append, countQ_append, countQ_append, hop.1, hop.2]
        decide
      · exact ih hrest f hf
    | whereEqualC d =>
      intro f hf
      simp only [whereFrags, List.mem_append, List.mem_map] at hf
      rcases hf with ⟨kv, hkv, rfl⟩ | hf
      · simp only [cleanClause] at hop
        rw [countQ_append, countQ_append, countQ_append, hop kv hkv]
        decide
      · exact ih hrest f hf
    | selectC c => intro f hf; exact ih hrest f (by simpa [whereFrags] using hf)
    | joinC t fst o s ty => intro f hf; exact ih hrest f (by simpa [whereFrags] using hf)
    | orderByC c dir => intro f hf; exact ih hrest f (by simpa [whereFrags] using hf)
    | limitC n o => intro f hf; exact ih hrest f (by simpa [whereFrags] using hf)

/-- A driver accepting every statement with a fixed small success result. -/
def drvOk : Driver := fun _ _ => .ok { rows := [], insertId := 1, affectedRows := 1 }

/-- C1: the claim requires that when the unit of work raises after a
successful begin, the coordinator skips commit, issues rollback on the
checked-out connection, and re-raises the original error. On the code,
for a unit of work that raises boom after issuing one statement, commit
is skipped and the error is re-raised unchanged, but no rollback is ever
issued: the coordinator only releases the connection. -/
theorem C1_transaction_no_rollback :
    transaction ((Except.error "boom" : Except String Unit),
        [TxEvent.exec "INSERT INTO users (name) VALUES (?)" [Value.str "x"]]) =
      (Except.error "boom",
        [TxEvent.beginTx,
         TxEvent.exec "INSERT INTO users (name) VALUES (?)" [Value.str "x"],
         TxEvent.release]) ∧
    TxEvent.commit ∉ (transaction ((Except.error "boom" : Except String Unit),
        [TxEvent.exec "INSERT INTO users (name) VALUES (?)" [Value.str "x"]])).2 ∧
    TxEvent.rollback ∉ (transaction ((Except.error "boom" : Except String Unit),
        [TxEvent.exec "INSERT INTO users (name) VALUES (?)" [Value.str "x"]])).2 := by
  decide

/-- C2 counterexample: a single where call whose column text itself holds
a question mark yields one fragment and one bound parameter, but the
compiled WHERE clause then holds two question-mark placeholders, so the
claimed placeholder-to-parameter count equality fails as stated. -/
theorem C2_counterexample :
    (applyClauses (DB.table "t") [Clause.whereC "a?" "=" (Value.num 0)]).wheres.length =
      (applyClauses (DB.table "t") [Clause.whereC "a?" "=" (Value.num 0)]).params.length ∧
    countQ (DB.whereClause (applyClauses (DB.table "t") [Clause.whereC "a?" "=" (Value.num 0)])) ≠
      (applyClauses (DB.table "t") [Clause.whereC "a?" "=" (Value.num 0)]).params.length := by
  decide

/-- C2 amended: for every state reachable by clause calls, the number of
predicate fragments equals the number of bound parameters; and provided
no where or whereEqual call carries a question mark inside its column or
operator text, every fragment holds exactly one placeholder, the
fragments and parameters are exactly those of the where-bearing calls in
call order (so the i-th placeholder binds the i-th parameter), and the
compiled WHERE clause holds exactly as many placeholders as parameters. -/
theorem C2_placeholder_alignment (t : String) (ops : List Clause) :
    (applyClauses (DB.table t) ops).wheres.length =
      (applyClauses (DB.table t) ops).params.length ∧
    ((∀ cl ∈ ops, cleanClause cl) →
      (applyClauses (DB.table t) ops).wheres = whereFrags ops ∧
      (applyClauses (DB.table t) ops).params = whereVals ops ∧
      (∀ f ∈ (applyClauses (DB.table t) ops).wheres, countQ f = 1) ∧
      countQ (DB.whereClause (applyClauses (DB.table t) ops)) =
        (applyClauses (DB.table t) ops).params.length) := by
  obtain ⟨hw, hp⟩ := applyClauses_wheres_params ops (DB.table t)
  have hw2 : (applyClauses (DB.table t) ops).wheres = whereFrags ops := by
    simpa [DB.table] using hw
  have hp2 : (applyClauses (DB.table t) ops).params = whereVals ops := by
    simpa [DB.table] using hp
  refine ⟨by rw [hw2, hp2]; exact whereFrags_length_eq ops, fun hclean => ⟨hw2, hp2, ?_, ?_⟩⟩
  · rw [hw2]; exact whereFrags_clean_countQ ops hclean
  · have hones := whereFrags_clean_countQ ops hclean
    unfold DB.whereClause
    rw [hw2, hp2, ← whereFrags_length_eq]
    by_cases he : whereFrags ops = []
    · simp [he, countQ]
    · rw [if_neg (by simp [List.isEmpty_iff, he])]
      rw [countQ_append, countQ_joinSep_ones " AND " (whereFrags ops) (by decide) hones]
      simp [show countQ "WHERE " = 0 from by decide]

/-- A clean clause sequence used to instantiate the C2 theorem. -/
def opsC2 : List Clause :=
  [Clause.whereC "status" "=" (Value.str "active"),
   Clause.whereEqualC [("role", Value.str "admin")],
   Clause.joinC "profiles" "users.id" "=" "profiles.user_id" "LEFT",
   Clause.orderByC "id" "DESC",
   Clause.limitC 5 none]

/-- C2 witness: the amended alignment at a concrete clause sequence. -/
theorem C2_witness :
    (∀ cl ∈ opsC2, cleanClause cl) ∧
    countQ (DB.whereClause (applyClauses (DB.table "users") opsC2)) =
      (applyClauses (DB.table "users") opsC2).params.length :=
  ⟨by decide, ((C2_placeholder_alignment "users" opsC2).2 (by decide)).2.2.2⟩

/-- A builder with a predicate and an order clause, used as a C3 input. -/
def bC3 : Db := DB.orderBy (DB.whereCond (DB.table "users") "id" "=" (Value.num 1)) "id" "ASC"

/-- C3 counterexample: truncate and insert are terminal operations listed
by the claim, yet on a builder holding a predicate and an order clause
they leave the accumulated state untouched, which is not the empty form. -/
theorem C3_counterexample :
    (DB.truncate drvOk false bC3).state = bC3 ∧
    (DB.insert drvOk false bC3 [("name", Value.str "x")]).state = bC3 ∧
    bC3 ≠ DB.reset bC3 := by
  decide

/-- C3 amended: get, first and count reset the accumulated state to the
empty form unconditionally; update and delete reset exactly when their
WHERE guard passes; paginate resets exactly when its COUNT step succeeds;
insert, insertBulk and truncate never reset. In particular after get the
state is the empty form, so a second get is an unfiltered, unordered,
unlimited query on the table. -/
theorem C3_reset_behavior (drv : Driver) (dbg : Bool) (b : Db) (data : Record)
    (rows : List Record) (col : String) (page perPage : Int) :
    (DB.get drv dbg b).state = DB.reset b ∧
    (DB.first drv dbg b).state = DB.reset b ∧
    (DB.count drv dbg b col).state = DB.reset b ∧
    (DB.update drv dbg b data).state = (if b.wheres.isEmpty then b else DB.reset b) ∧
    (DB.delete drv dbg b).state = (if b.wheres.isEmpty then b else DB.reset b) ∧
    (DB.insert drv dbg b data).state = b ∧
    (DB.insertBulk drv dbg b rows).state = b ∧
    (DB.truncate drv dbg b).state = b ∧
    (DB.paginate drv dbg b page perPage).state =
      (match drv (DB.paginateCountSql b) b.params with
        | .ok _ => DB.reset b
        | .error _ => b) ∧
    ((DB.get drv dbg b).state).wheres = [] ∧
    ((DB.get drv dbg b).state).order = "" ∧
    ((DB.get drv dbg b).state).limitVal = "" ∧
    ((DB.get drv dbg b).state).joins = [] ∧
    ((DB.get drv dbg b).state).selectCols = "*" ∧
    DB.buildSelect ((DB.get drv dbg b).state) = DB.buildSelect (DB.reset b) := by
  refine ⟨rfl, rfl, rfl, ?_, ?_, ?_, ?_, rfl, ?_, rfl, rfl, rfl, rfl, rfl, rfl⟩
  · by_cases h : b.wheres.isEmpty <;> simp [DB.update, h]
  · by_cases h : b.wheres.isEmpty <;> simp [DB.delete, h]
  · cases hf : data.find? (fun kv => kv.2 == Value.undef) <;> simp [DB.insert, hf]
  · by_cases hr : rows.isEmpty
    · simp [DB.insertBulk, hr]
    · cases hc : DB.checkRows (DB.bulkKeys rows) 0 rows <;> simp [DB.insertBulk, hr, hc]
  · cases hd : drv (DB.paginateCountSql b) b.params with
    | ok r => simp [DB.paginate, DB._execute, hd, DB.get, DB.reset, DB.limit]
    | error m => simp [DB.paginate, DB._execute, hd]

/-- C4: with no predicate fragment accumulated, update and delete fail
with their caller-contract errors and send nothing to the pool or the
transaction connection (no events, no logs). -/
theorem C4_update_delete_require_where (drv : Driver) (dbg : Bool) (b : Db) (data : Record)
    (h : b.wheres = []) :
    (DB.update drv dbg b data).result = .error "UPDATE requires WHERE" ∧
    (DB.update drv dbg b data).events = [] ∧
    (DB.update drv dbg b data).logs = [] ∧
    (DB.delete drv dbg b).result = .error "DELETE requires WHERE" ∧
    (DB.delete drv dbg b).events = [] ∧
    (DB.delete drv dbg b).logs = [] := by
  have hw : b.wheres.isEmpty = true := by simp [h]
  simp [DB.update, DB.delete, hw]

/-- C4 witness: the guard on a fresh builder with no where calls. -/
theorem C4_witness :
    (DB.table "users").wheres = [] ∧
    (DB.update drvOk true (DB.table "users") [("name", Value.str "x")]).result =
      .error "UPDATE requires WHERE" ∧
    (DB.update drvOk true (DB.table "users") [("name", Value.str "x")]).events = [] ∧
    (DB.delete drvOk true (DB.table "users")).result = .error "DELETE requires WHERE" ∧
    (DB.delete drvOk true (DB.table "users")).events = [] := by
  have h := C4_update_delete_require_where drvOk true (DB.table "users")
    [("name", Value.str "x")] rfl
  exact ⟨rfl, h.1, h.2.1, h.2.2.2.1, h.2.2.2.2.1⟩

/-- C5: the claim requires paginate to reject page <= 0 or perPage <= 0
before any I/O. On the code, paginate(0, 10) performs no validation: it
runs the COUNT round trip and then a SELECT whose limit clause renders
the negative offset as LIMIT -10, 10, completing without error. -/
theorem C5_paginate_no_validation :
    (DB.paginate drvOk false (DB.table "users") 0 10).events.map (fun e => e.sql) =
      [DB.paginateCountSql (DB.table "users"),
       DB.buildSelect (DB.limit (DB.table "users") 10 (some (-10)))] ∧
    (DB.limit (DB.table "users") 10 (some (-10))).limitVal = "LIMIT -10, 10" ∧
    (DB.paginate drvOk false (DB.table "users") 0 10).events ≠ [] ∧
    (DB.paginate drvOk false (DB.table "users") 0 10).result.isOk = true := by
  decide

/-- C6: for a valid paginate call, the two statements sent are the COUNT
over the current JOIN/WHERE state and the SELECT with offset
(page - 1) * perPage, both carrying the same accumulated parameters; the
returned metadata carries the counted total, perPage and page as given,
and lastPage = ceil(total / perPage); the data page is the driver's rows
for the limit query, hence at most perPage rows when the driver honors
the limit clause. -/
theorem C6_paginate_valid (drv : Driver) (dbg : Bool) (b : Db) (page perPage : Int)
    (cres dres : ExecResult)
    (hp : 1 ≤ page) (hpp : 1 ≤ perPage)
    (hc : drv (DB.paginateCountSql b) b.params = .ok cres)
    (hd : drv (DB.buildSelect (DB.limit b perPage (some ((page - 1) * perPage)))) b.params =
      .ok dres)
    (hrows : dres.rows.length ≤ perPage.toNat) :
    0 ≤ (page - 1) * perPage ∧
    (DB.limit b perPage (some ((page - 1) * perPage))).wheres = b.wheres ∧
    (DB.limit b perPage (some ((page - 1) * perPage))).joins = b.joins ∧
    (DB.paginate drv dbg b page perPage).events.map (fun e => e.sql) =
      [DB.paginateCountSql b,
       DB.buildSelect (DB.limit b perPage (some ((page - 1) * perPage)))] ∧
    (DB.paginate drv dbg b page perPage).events.map (fun e => e.params) =
      [b.params, b.params] ∧
    (DB.paginate drv dbg b page perPage).result = .ok
      { data := dres.rows
      , meta :=
        { total := DB.totalOf cres.rows
        , perPage := perPage
        , currentPage := page
        , lastPage := ⌈((DB.totalOf cres.rows : ℚ)) / ((perPage : ℚ))⌉ } } ∧
    dres.rows.length ≤ perPage.toNat := by
  have hparams : (DB.limit b perPage (some ((page - 1) * perPage))).params = b.params := rfl
  refine ⟨mul_nonneg (by omega) (by omega), rfl, rfl, ?_, ?_, ?_, hrows⟩
  · simp only [DB.paginate, DB._execute, DB.get, hparams, hc, hd]
    simp
  · simp only [DB.paginate, DB._execute, DB.get, hparams, hc, hd]
    simp
  · simp only [DB.paginate, DB._execute, DB.get, hparams, hc, hd]
    simp [Except.map]

/-- The filtered builder used to instantiate the C6 theorem. -/
def bC6 : Db := DB.whereCond (DB.table "users") "status" "=" (Value.str "active")

/-- One data row of the C6 driver. -/
def rowC6 : Row := [("id", Value.num 1)]

/-- The COUNT result of the C6 driver: 25 matching rows in total. -/
def cresC6 : ExecResult := { rows := [[("total", Value.num 25)]], insertId := 0, affectedRows := 0 }

/-- The data-page result of the C6 driver: 10 rows. -/
def dresC6 : ExecResult := { rows := List.replicate 10 rowC6, insertId := 0, affectedRows := 0 }

/-- The C6 driver: answers the COUNT statement with the 25-row total and
every other statement with the 10-row data page. -/
def drvC6 : Driver := fun q _ =>
  if q = DB.paginateCountSql bC6 then .ok cresC6 else .ok dresC6

/-- C6 witness: paginate(2, 10) over 25 matching rows yields total 25,
perPage 10, currentPage 2, lastPage 3 and a 10-row data page. -/
theorem C6_witness :
    (1 : Int) ≤ 2 ∧ (1 : Int) ≤ 10 ∧
    (DB.paginate drvC6 false bC6 2 10).result = .ok
      { data := List.replicate 10 rowC6
      , meta := { total := 25, perPage := 10, currentPage := 2, lastPage := 3 } } := by
  have h := C6_paginate_valid drvC6 false bC6 2 10 cresC6 dresC6
    (by norm_num) (by norm_num) (by decide) (by decide) (by decide)
  refine ⟨by norm_num, by norm_num, ?_⟩
  rw [h.2.2.2.2.2.1]
  have htot : DB.totalOf cresC6.rows = 25 := by decide
  rw [htot]
  have hceil : ⌈((25 : Int) : ℚ) / ((10 : Int) : ℚ)⌉ = (3 : Int) := by
    rw [Int.ceil_eq_iff]
    norm_num
  rw [hceil]
  rfl

/-- C7 counterexample: on a builder with an order clause but no predicate
fragments, update fails on the WHERE guard and leaves the accumulated
state untouched instead of resetting it. -/
theorem C7_counterexample :
    (DB.update drvOk false (DB.orderBy (DB.table "users") "id" "DESC")
        [("name", Value.str "x")]).state =
      DB.orderBy (DB.table "users") "id" "DESC" ∧
    (DB.update drvOk false (DB.orderBy (DB.table "users") "id" "DESC")
        [("name", Value.str "x")]).state ≠
      DB.reset (DB.orderBy (DB.table "users") "id" "DESC") ∧
    (DB.update drvOk false (DB.orderBy (DB.table "users") "id" "DESC")
        [("name", Value.str "x")]).result = .error "UPDATE requires WHERE" := by
  decide

/-- C7 amended: update resets the accumulated state on every exit path on
which its WHERE guard passes, whether the driver call succeeds or fails;
on the guard failure with no predicate fragments it raises without
resetting, leaving the state unchanged. -/
theorem C7_update_reset_paths (drv : Driver) (dbg : Bool) (b : Db) (data : Record) :
    (DB.update drv dbg b data).state = (if b.wheres.isEmpty then b else DB.reset b) := by
  by_cases h : b.wheres.isEmpty <;> simp [DB.update, h]

/-- C8 counterexample: row 1 does not hold exactly the key set of row 0
(it carries the extra key b), so per the claim insertBulk must fail
before any I/O naming the offending row; the code instead checks only
containment of the first row's keys, issues the INSERT ignoring the
extra column, and succeeds. -/
theorem C8_counterexample :
    (DB.insertBulk drvOk false (DB.table "t")
        [[("a", Value.num 1)], [("a", Value.num 2), ("b", Value.num 3)]]).result = .ok 1 ∧
    (DB.insertBulk drvOk false (DB.table "t")
        [[("a", Value.num 1)], [("a", Value.num 2), ("b", Value.num 3)]]).events.map
        (fun e => e.params) = [[Value.num 1, Value.num 2]] ∧
    (DB.insertBulk drvOk false (DB.table "t")
        [[("a", Value.num 1)], [("a", Value.num 2), ("b", Value.num 3)]]).events ≠ [] := by
  decide

/-- C8 amended: insertBulk fails before any I/O unless the sequence is
non-empty and every record holds a defined value at every key of the
first record (records may carry extra keys, which are ignored); the
failure error names the offending row index and column — the first
violating row in scan order, and within it the first violating key of
the first record's key list, with the missing-column message exactly
when that key is absent from the row and the undefined-value message
exactly when it is present with the unset sentinel; on a valid input it
sends exactly one multi-row INSERT whose parameter sequence is the
per-record values at the first record's keys, flattened in column order,
row-major, and returns the driver's affected-row count. -/
theorem C8_insertBulk_behavior (drv : Driver) (dbg : Bool) (b : Db) (rows : List Record) :
    (bulkOk rows →
      (DB.insertBulk drv dbg b rows).events =
        [{ target := DB.execTarget b, sql := DB.bulkSql b rows, params := DB.bulkValues rows }] ∧
      (DB.bulkValues rows).length = rows.length * (DB.bulkKeys rows).length ∧
      DB.bulkValues rows =
        rows.flatMap (fun r => (DB.bulkKeys rows).map (fun k => DB.lookupD r k)) ∧
      (DB.insertBulk drv dbg b rows).result =
        (match drv (DB.bulkSql b rows) (DB.bulkValues rows) with
          | .ok res => .ok res.affectedRows
          | .error m => .error ("BULK INSERT failed: " ++ m))) ∧
    (¬ bulkOk rows →
      (DB.insertBulk drv dbg b rows).events = [] ∧
      ∃ m, (DB.insertBulk drv dbg b rows).result = .error m ∧
        ((rows = [] ∧ m = "BULK INSERT failed: insertBulk requires a non-empty array") ∨
         ∃ i r, i < rows.length ∧ rows[i]? = some r ∧
           (∀ i2 < i, ∀ r2, rows[i2]? = some r2 →
             ∀ k ∈ DB.bulkKeys rows, DB.lookupD r2 k ≠ Value.undef) ∧
           ∃ ks1 k ks2, DB.bulkKeys rows = ks1 ++ k :: ks2 ∧
             (∀ k2 ∈ ks1, DB.lookupD r k2 ≠ Value.undef) ∧
             ((List.lookup k r = none ∧
                 m = "BULK INSERT failed: " ++ DB.missingMsg k i) ∨
              (List.lookup k r = some Value.undef ∧
                 m = "BULK INSERT failed: " ++ DB.undefMsg k i)))) := by
  constructor
  · intro hok
    have hne : rows.isEmpty = false := by
      simp [List.isEmpty_iff]
      exact hok.1
    have hchk : DB.checkRows (DB.bulkKeys rows) 0 rows = none :=
      (checkRows_none_iff (DB.bulkKeys rows) rows 0).mpr hok.2
    refine ⟨by simp [DB.insertBulk, hne, hchk, DB._execute],
      bulkValues_length rows, rfl, ?_⟩
    cases hres : drv (DB.bulkSql b rows) (DB.bulkValues rows) <;>
      simp [DB.insertBulk, hne, hchk, DB._execute, hres]
  · intro hbad
    by_cases hne : rows = []
    · subst hne
      exact ⟨by simp [DB.insertBulk],
        "BULK INSERT failed: insertBulk requires a non-empty array",
        by simp [DB.insertBulk], Or.inl ⟨rfl, rfl⟩⟩
    · have h2 : ¬ ∀ r ∈ rows, ∀ k ∈ DB.bulkKeys rows, DB.lookupD r k ≠ Value.undef := by
        intro hall
        exact hbad ⟨hne, hall⟩
      have h3 : DB.checkRows (DB.bulkKeys rows) 0 rows ≠ none := by
        intro h0
        exact h2 ((checkRows_none_iff (DB.bulkKeys rows) rows 0).mp h0)
      cases hchk : DB.checkRows (DB.bulkKeys rows) 0 rows with
      | none => exact absurd hchk h3
      | some m =>
        have hne2 : rows.isEmpty = false := by simp [List.isEmpty_iff, hne]
        obtain ⟨j, r, hj, hget, hprior, ks1, k, ks2, heq, hpre, hviol⟩ :=
          checkRows_some_first_violation (DB.bulkKeys rows) rows m 0 hchk
        refine ⟨by simp [DB.insertBulk, hne2, hchk],
          "BULK INSERT failed: " ++ m,
          by simp [DB.insertBulk, hne2, hchk],
          Or.inr ⟨j, r, hj, hget, hprior, ks1, k, ks2, heq, hpre, ?_⟩⟩
        rcases hviol with ⟨hl, hm⟩ | ⟨hl, hm⟩
        · exact Or.inl ⟨hl, by rw [hm, Nat.zero_add]⟩
        · exact Or.inr ⟨hl, by rw [hm, Nat.zero_add]⟩

/-- A uniform two-row bulk payload used to instantiate the C8 theorem. -/
def rowsC8w : List Record :=
  [[("name", Value.str "Ali"), ("email", Value.str "ali@test.com")],
   [("name", Value.str "John"), ("email", Value.str "john@test.com")]]

/-- A bulk payload whose row 2 is missing the column a present in row 0. -/
def rowsC8bad : List Record :=
  [[("a", Value.num 1)], [("a", Value.num 2)], [("b", Value.num 3)]]

/-- C8 witness: the amended behavior at a concrete valid payload; and at
the concrete payload whose row 2 lacks a column of row 0, the failure
names row index 2 and column a, with no statement sent. -/
theorem C8_witness :
    bulkOk rowsC8w ∧
    (DB.insertBulk drvOk false (DB.table "users") rowsC8w).events =
      [{ target := DB.execTarget (DB.table "users")
       , sql := DB.bulkSql (DB.table "users") rowsC8w
       , params := DB.bulkValues rowsC8w }] ∧
    (DB.bulkValues rowsC8w).length = rowsC8w.length * (DB.bulkKeys rowsC8w).length ∧
    (DB.insertBulk drvOk false (DB.table "t") rowsC8bad).result =
      .error "BULK INSERT failed: Missing column \x22a\x22 in row 2" ∧
    (DB.insertBulk drvOk false (DB.table "t") rowsC8bad).events = [] := by
  have h := (C8_insertBulk_behavior drvOk false (DB.table "users") rowsC8w).1 (by decide)
  exact ⟨by decide, h.1, h.2.1, by decide, by decide⟩

/-- C9: flipping the process-wide debug flag changes nothing but the
diagnostic log entries: the result, the post-call state, and the events
(statement text, parameters, target connection) of the executor and of
every terminal operation are identical under both flag values, while the
flag genuinely gates the log output of the same run. -/
theorem C9_debug_noninterference (drv : Driver) (b : Db) (s : String) (ps : List Value)
    (data : Record) (rows : List Record) (col : String) (page perPage : Int) :
    (DB._execute drv true b s ps).result = (DB._execute drv false b s ps).result ∧
    (DB._execute drv true b s ps).event = (DB._execute drv false b s ps).event ∧
    (DB.get drv true b).core = (DB.get drv false b).core ∧
    (DB.first drv true b).core = (DB.first drv false b).core ∧
    (DB.insert drv true b data).core = (DB.insert drv false b data).core ∧
    (DB.insertBulk drv true b rows).core = (DB.insertBulk drv false b rows).core ∧
    (DB.update drv true b data).core = (DB.update drv false b data).core ∧
    (DB.delete drv true b).core = (DB.delete drv false b).core ∧
    (DB.truncate drv true b).core = (DB.truncate drv false b).core ∧
    (DB.count drv true b col).core = (DB.count drv false b col).core ∧
    (DB.paginate drv true b page perPage).core = (DB.paginate drv false b page perPage).core ∧
    (DB.get drv true b).logs = [(normalizeSql (DB.buildSelect b), b.params)] ∧
    (DB.get drv false b).logs = [] := by
  refine ⟨rfl, rfl, rfl, rfl, ?_, ?_, ?_, ?_, rfl, rfl, ?_, rfl, rfl⟩
  · cases hf : data.find? (fun kv => kv.2 == Value.undef) <;>
      simp [DB.insert, hf, DB.OpOut.core, DB._execute]
  · by_cases hr : rows.isEmpty
    · simp [DB.insertBulk, hr, DB.OpOut.core]
    · cases hc : DB.checkRows (DB.bulkKeys rows) 0 rows <;>
        simp [DB.insertBulk, hr, hc, DB.OpOut.core, DB._execute]
  · by_cases h : b.wheres.isEmpty <;> simp [DB.update, h, DB.OpOut.core, DB._execute]
  · by_cases h : b.wheres.isEmpty <;> simp [DB.delete, h, DB.OpOut.core, DB._execute]
  · cases hd : drv (DB.paginateCountSql b) b.params <;>
      simp [DB.paginate, DB._execute, hd, DB.OpOut.core, DB.get]

/-- C10: the raw-SQL entry points differ in shape: the top-level DB.sql
returns only the row component of the driver result, while the
transaction-scoped trx.sql returns the unnormalized result (rows plus
metadata); for every driver behavior DB.sql is the row projection of
trx.sql, and two driver behaviors differing only in metadata are
indistinguishable through DB.sql yet distinguished by trx.sql. -/
theorem C10_raw_sql_shapes :
    (∀ (drv : Driver) (q : String) (ps : List Value),
      DB.sql drv q ps = (trxSql drv q ps).map ExecResult.rows) ∧
    (∃ (d1 d2 : Driver) (q : String) (ps : List Value),
      DB.sql d1 q ps = DB.sql d2 q ps ∧ trxSql d1 q ps ≠ trxSql d2 q ps) := by
  constructor
  · intro drv q ps
    rfl
  · refine ⟨fun _ _ => .ok { rows := [], insertId := 1, affectedRows := 0 },
      fun _ _ => .ok { rows := [], insertId := 2, affectedRows := 0 },
      "SELECT 1", [], rfl, by decide⟩
